import Mathlib

/-!
# Verification of the Automatos test-harness orchestration core

A shallow embedding of the orchestration layer of the repository:

* `src/framework/base_test.py` — the `TestResult` record, the `BaseTest`
  suite contract (`log_result`, `get_test_summary`);
* `src/framework/test_runner.py` — `TestRunner.run_test_class`,
  `TestRunner.run_tests`, `TestRunner._generate_test_summary`;
* `src/framework/reporting.py` — `TestReporter._generate_json_report` and
  `TestReporter._create_junit_xml` (modelled structurally: the numeric
  attribute values that the f-strings interpolate).

Abstractions used throughout (wall-clock time is not modellable):
`time.time()` differences, the ISO timestamps and the run id are dropped or
fixed to `0`; durations are rationals.  The free-form `details` payload is
an optional string.  A Python exception is represented by the string that
`str(e)` would produce (which is empty for an exception constructed with no
arguments).

A test suite, as the Runner observes it, is a `Suite` value: whether its
constructor raises, whether it has a `setup`/`cleanup` attribute and whether
those raise, and its `test_`-prefixed callable attributes in declaration
order, each of which either returns or raises.  `dir()` in
`run_test_class` (line 74 of `test_runner.py`) returns each attribute name
once, sorted alphabetically, which the embedding reproduces by sorting the
declared method list by name.
-/

namespace Automatos

/-- The `TestResult` dataclass of `base_test.py` (lines 20-32): one test
method's outcome.  The auto-filled `timestamp` field is wall-clock and is
omitted. -/
structure TestResult where
  test_name : String
  status : String
  duration : ℚ
  error : Option String
  details : Option String
  deriving Repr, DecidableEq

/-- The mutable state of a `BaseTest` instance (`base_test.py` lines 34-42)
that the orchestration core reads: identity, declared level, and the
in-memory result list. -/
structure BaseTest where
  test_name : String
  test_level : String
  results : List TestResult
  deriving Repr, DecidableEq

/-- A freshly constructed `BaseTest` (its `__init__`): empty result list. -/
def mkBaseTest (name level : String) : BaseTest :=
  { test_name := name, test_level := level, results := [] }

/-- Embeds `BaseTest.log_result` (`base_test.py` lines 44-57): append one
`TestResult` built from the arguments to `self.results`. -/
def log_result (t : BaseTest) (test_name status : String) (duration : ℚ)
    (error : Option String) (details : Option String) : BaseTest :=
  { t with results := t.results ++
      [{ test_name := test_name, status := status, duration := duration,
         error := error, details := details }] }

/-- The dictionary returned by `BaseTest.get_test_summary`
(`base_test.py` lines 59-83), with the `total_duration` key that
`run_test_class` attaches afterwards (`test_runner.py` line 99). -/
structure SuiteSummary where
  test_suite : String
  test_level : String
  total_tests : Nat
  passed : Nat
  failed : Nat
  skipped : Nat
  success_rate : ℚ
  results : List TestResult
  total_duration : ℚ
  deriving Repr, DecidableEq

/-- Embeds `BaseTest.get_test_summary` (`base_test.py` lines 59-83): fold the
recorded results into counts; `success_rate = passed/total*100` when
`total > 0`, else `0`. -/
def get_test_summary (t : BaseTest) : SuiteSummary :=
  let total := t.results.length
  let passed := (t.results.filter (fun r => r.status = "passed")).length
  let failed := (t.results.filter (fun r => r.status = "failed")).length
  let skipped := (t.results.filter (fun r => r.status = "skipped")).length
  { test_suite := t.test_name
    test_level := t.test_level
    total_tests := total
    passed := passed
    failed := failed
    skipped := skipped
    success_rate := if 0 < total then (passed : ℚ) / (total : ℚ) * 100 else 0
    results := t.results
    total_duration := 0 }

/-- What one test method does when invoked: return normally, or raise an
exception whose `str()` is the given message. -/
inductive MethodOutcome where
  | ok : MethodOutcome
  | raises : String → MethodOutcome
  deriving Repr, DecidableEq

/-- Whether the outcome is an exception. -/
def MethodOutcome.isRaise : MethodOutcome → Bool
  | MethodOutcome.ok => false
  | MethodOutcome.raises _ => true

/-- A test-suite class as `TestRunner` observes it through the Suite
Contract: name, declared level, whether `test_class()` raises, whether a
`setup`/`cleanup` attribute exists and whether awaiting it raises, and the
`test_`-prefixed callable attributes in source declaration order together
with each one's behaviour when invoked. -/
structure Suite where
  name : String
  level : String
  ctor_raises : Bool
  has_setup : Bool
  setup_raises : Bool
  methods : List (String × MethodOutcome)
  has_cleanup : Bool
  cleanup_raises : Bool
  deriving Repr, DecidableEq

/-- Observable calls the Runner makes into a suite instance while driving
it (used to state which bodies were actually invoked). -/
inductive Event where
  | setupCall : Event
  | methodCall : String → Event
  | cleanupCall : Event
  deriving Repr, DecidableEq

/-- The `test_`-prefixed attributes of the instance
(`test_runner.py` lines 74-75, the `startswith('test_')` filter). -/
def testMethodsOf (s : Suite) : List (String × MethodOutcome) :=
  s.methods.filter (fun m => "test_".toList.isPrefixOf m.1.toList)

/-- Lexicographic "less or equal" on character lists by code point, the
order in which `dir()` lists attribute names. -/
def charLeb : List Char → List Char → Bool
  | [], _ => true
  | _ :: _, [] => false
  | a :: as, b :: bs =>
    if a.val.toNat < b.val.toNat then true
    else if b.val.toNat < a.val.toNat then false
    else charLeb as bs

/-- Lexicographic order on strings by code point. -/
def strLeb (a b : String) : Bool := charLeb a.toList b.toList

/-- Insert a method into a name-sorted method list, keeping it sorted. -/
def insertByName (m : String × MethodOutcome) :
    List (String × MethodOutcome) → List (String × MethodOutcome)
  | [] => [m]
  | x :: xs => if strLeb m.1 x.1 then m :: x :: xs else x :: insertByName m xs

/-- Sort a method list by name (insertion sort). -/
def sortByName : List (String × MethodOutcome) → List (String × MethodOutcome)
  | [] => []
  | m :: ms => insertByName m (sortByName ms)

/-- The method list in the order the loop of `run_test_class` visits it:
`dir()` yields each attribute name once, sorted alphabetically
(`test_runner.py` line 74). -/
def discoveredMethods (s : Suite) : List (String × MethodOutcome) :=
  sortByName (testMethodsOf s)

/-- One iteration of the method loop (`test_runner.py` lines 77-88): invoke
the method; on success `log_result(name, "passed", elapsed)`, on exception
`log_result(name, "failed", elapsed, str(e))`.  Elapsed times are
abstracted to `0`. -/
def runMethod (i : BaseTest) (m : String × MethodOutcome) : BaseTest :=
  match m.2 with
  | MethodOutcome.ok => log_result i m.1 "passed" 0 none none
  | MethodOutcome.raises msg => log_result i m.1 "failed" 0 (some msg) none

/-- The `TestResult` the loop records for one method. -/
def recordOf : String × MethodOutcome → TestResult
  | (n, MethodOutcome.ok) =>
      { test_name := n, status := "passed", duration := 0,
        error := none, details := none }
  | (n, MethodOutcome.raises msg) =>
      { test_name := n, status := "failed", duration := 0,
        error := some msg, details := none }

/-- Models `run_test_class` overwriting `summary['total_duration']`
(`test_runner.py` line 99); wall-clock duration abstracted to the given
rational. -/
def attachDuration (sum : SuiteSummary) (d : ℚ) : SuiteSummary :=
  { sum with total_duration := d }

/-- Embeds `TestRunner.run_test_class` (`test_runner.py` lines 60-101).
`test_class()` on line 65 is outside the try/except, so a constructor
exception propagates (`Except.error`).  Inside the try: if `setup` exists
and raises, control jumps to the handler on line 94 — the method loop and
the `cleanup` call are skipped — and the summary is still computed from
the (empty) result list on lines 97-101.  Otherwise every discovered
method is invoked in `dir()` order and logged, then `cleanup` is awaited
if present; a `cleanup` exception is caught by the same handler and the
summary is still computed from the recorded results. -/
def run_test_class (s : Suite) : Except String (SuiteSummary × List Event) :=
  if s.ctor_raises then Except.error (s.name ++ ": constructor raised")
  else
    let inst := mkBaseTest s.name s.level
    let setupEvents : List Event := if s.has_setup then [Event.setupCall] else []
    if s.has_setup && s.setup_raises then
      Except.ok (attachDuration (get_test_summary inst) 0, setupEvents)
    else
      let ms := discoveredMethods s
      let inst2 := ms.foldl runMethod inst
      let evs := setupEvents ++ ms.map (fun m => Event.methodCall m.1) ++
        (if s.has_cleanup then [Event.cleanupCall] else [])
      Except.ok (attachDuration (get_test_summary inst2) 0, evs)

/-- The summary dictionary built by `TestRunner._generate_test_summary`
(`test_runner.py` lines 156-194).  `test_run_id` and `timestamp` are
wall-clock strings and are omitted; `environment` comes from the global
config (default `"development"`, `config.py` line 67). -/
structure RunSummary where
  environment : String
  duration : ℚ
  total_suites : Nat
  total_tests : Nat
  passed : Nat
  failed : Nat
  skipped : Nat
  success_rate : ℚ
  status : String
  deriving Repr, DecidableEq

/-- Embeds `TestRunner._generate_test_summary` (`test_runner.py` lines 156-178):
sum the per-suite counts over `all_results.values()`, compute the rate,
and set `status` to `"passed"` iff no suite contributed a failure. -/
def generate_test_summary (all_results : List (String × SuiteSummary))
    (total_duration : ℚ) : RunSummary :=
  let total_tests := (all_results.map (fun p => p.2.total_tests)).sum
  let total_passed := (all_results.map (fun p => p.2.passed)).sum
  let total_failed := (all_results.map (fun p => p.2.failed)).sum
  let total_skipped := (all_results.map (fun p => p.2.skipped)).sum
  { environment := "development"
    duration := total_duration
    total_suites := all_results.length
    total_tests := total_tests
    passed := total_passed
    failed := total_failed
    skipped := total_skipped
    success_rate :=
      if 0 < total_tests then (total_passed : ℚ) / (total_tests : ℚ) * 100 else 0
    status := if total_failed = 0 then "passed" else "failed" }

/-- Python dict assignment `all_results[name] = summary`: replace in place
if the key is present, else append. -/
def dictInsert (d : List (String × SuiteSummary)) (k : String)
    (v : SuiteSummary) : List (String × SuiteSummary) :=
  if d.any (fun p => p.1 == k) then
    d.map (fun p => if p.1 == k then (k, v) else p)
  else d ++ [(k, v)]

/-- Python's `needle in hay` on strings. -/
def strContains (hay needle : String) : Bool :=
  hay.toList.tails.any (fun t => needle.toList.isPrefixOf t)

/-- The name filter of `run_tests` (`test_runner.py` lines 116-117):
applied only when `test_filter` is truthy (not `None`, not empty), as a
case-insensitive substring match on the class name. -/
def applyFilter (test_filter : Option String) (tcs : List Suite) : List Suite :=
  match test_filter with
  | none => tcs
  | some f =>
      if f = "" then tcs
      else tcs.filter (fun tc => strContains tc.name.toLower f.toLower)

/-- The sequential branch of `run_tests` (`test_runner.py` lines 140-143):
drive each suite in turn; an exception from `run_test_class` (only the
constructor can raise, see `run_test_class`) propagates immediately,
abandoning the loop. -/
def driveSeq : List Suite → List (String × SuiteSummary) →
    List (String × List Event) →
    Except String (List (String × SuiteSummary) × List (String × List Event))
  | [], res, trs => Except.ok (res, trs)
  | tc :: rest, res, trs =>
    match run_test_class tc with
    | Except.error e => Except.error e
    | Except.ok (sum, tr) =>
        driveSeq rest (dictInsert res tc.name sum) (trs ++ [(tc.name, tr)])

/-- The parallel branch of `run_tests` (`test_runner.py` lines 129-138):
`asyncio.gather(..., return_exceptions=True)` then, in discovery order, a
task that ended in an exception is only printed and skipped, the others
are stored under the class name. -/
def drivePar : List Suite → List (String × SuiteSummary) →
    List (String × List Event) →
    List (String × SuiteSummary) × List (String × List Event)
  | [], res, trs => (res, trs)
  | tc :: rest, res, trs =>
    match run_test_class tc with
    | Except.error _ => drivePar rest res trs
    | Except.ok (sum, tr) =>
        drivePar rest (dictInsert res tc.name sum) (trs ++ [(tc.name, tr)])

/-- What one call of `run_tests` produces: the run summary, the
`all_results` map handed to the Reporter, and the per-suite call traces. -/
structure RunOutput where
  summary : RunSummary
  all_results : List (String × SuiteSummary)
  traces : List (String × List Event)
  deriving Repr, DecidableEq

/-- Embeds `TestRunner.run_tests` (`test_runner.py` lines 103-154).  The name
filter is applied; the `test_level` argument is accepted but its branch
body is `pass` (lines 119-121), so it has no effect.  The parallel branch
is taken when the config flag is set and more than one suite survived the
filter; otherwise suites run sequentially and a constructor exception
propagates out of `run_tests`. -/
def run_tests (parallel_tests : Bool) (suites : List Suite)
    (test_filter test_level : Option String) : Except String RunOutput :=
  let tcs := applyFilter test_filter suites
  if parallel_tests = true ∧ 1 < tcs.length then
    let rt := drivePar tcs [] []
    Except.ok { summary := generate_test_summary rt.1 0,
                all_results := rt.1, traces := rt.2 }
  else
    match driveSeq tcs [] [] with
    | Except.error e => Except.error e
    | Except.ok rt =>
        Except.ok { summary := generate_test_summary rt.1 0,
                    all_results := rt.1, traces := rt.2 }

/-- The JSON report (`reporting.py` lines 40-58): the summary and the
detailed results are dumped unchanged; of the metadata only the
environment is modellable. -/
structure JsonReport where
  summary : RunSummary
  detailed_results : List (String × SuiteSummary)
  environment : String
  deriving Repr, DecidableEq

/-- Embeds `TestReporter._generate_json_report` (`reporting.py` lines 40-58). -/
def generate_json_report (summary : RunSummary)
    (detailed : List (String × SuiteSummary)) : JsonReport :=
  { summary := summary, detailed_results := detailed,
    environment := "development" }

/-- One `<testcase>` element of the JUnit XML (`reporting.py` lines
217-229): a `failure` child holding the error text when the record failed,
a `skipped` child when it was skipped. -/
structure JUnitTestCase where
  name : String
  time : ℚ
  failure : Option String
  skipped : Bool
  deriving Repr, DecidableEq

/-- One `<testsuite>` element (`reporting.py` lines 209-215). -/
structure JUnitTestSuite where
  name : String
  tests : Nat
  failures : Nat
  skipped : Nat
  time : ℚ
  cases : List JUnitTestCase
  deriving Repr, DecidableEq

/-- The `<testsuites>` root element (`reporting.py` lines 201-207). -/
structure JUnitTestSuites where
  tests : Nat
  failures : Nat
  skipped : Nat
  time : ℚ
  suites : List JUnitTestSuite
  deriving Repr, DecidableEq

/-- Embeds `TestReporter._create_junit_xml` (`reporting.py` lines 198-236),
modelled structurally: the numeric attribute values interpolated into the
XML.  The root attributes come from `summary['total_tests']`,
`summary['failed']`, `summary['skipped']`, `summary['duration']`; each
suite element from the per-suite summary; each `testcase` from one result
record. -/
def create_junit_xml (summary : RunSummary)
    (detailed : List (String × SuiteSummary)) : JUnitTestSuites :=
  { tests := summary.total_tests
    failures := summary.failed
    skipped := summary.skipped
    time := summary.duration
    suites := detailed.map (fun p =>
      { name := p.1
        tests := p.2.total_tests
        failures := p.2.failed
        skipped := p.2.skipped
        time := p.2.total_duration
        cases := p.2.results.map (fun r =>
          { name := r.test_name
            time := r.duration
            failure := if r.status = "failed" then some (r.error.getD "") else none
            skipped := r.status = "skipped" }) }) }

/-- One recorded call of `log_result`, for stating the `BaseTest`
book-keeping invariant. -/
structure LogCall where
  test_name : String
  status : String
  duration : ℚ
  error : Option String
  details : Option String
  deriving Repr, DecidableEq

/-- The `TestResult` a `log_result` call appends. -/
def LogCall.toResult (c : LogCall) : TestResult :=
  { test_name := c.test_name, status := c.status, duration := c.duration,
    error := c.error, details := c.details }

/-- Replay a sequence of `log_result` calls on a `BaseTest` instance. -/
def applyLogs (t : BaseTest) (calls : List LogCall) : BaseTest :=
  calls.foldl
    (fun i c => log_result i c.test_name c.status c.duration c.error c.details) t

/-! ## Concrete suites used in witnesses and counterexamples -/

/-- A suite whose `setup` raises; it declares one test method and a
`cleanup`. -/
def suiteSetupBoom : Suite :=
  { name := "SetupBoom", level := "integration", ctor_raises := false,
    has_setup := true, setup_raises := true,
    methods := [("test_a", MethodOutcome.ok)],
    has_cleanup := true, cleanup_raises := false }

/-- A suite whose constructor raises. -/
def suiteCtorBoom : Suite :=
  { name := "CtorBoom", level := "unit", ctor_raises := true,
    has_setup := false, setup_raises := false, methods := [],
    has_cleanup := false, cleanup_raises := false }

/-- A suite declaring `test_b` before `test_a` in its source. -/
def suiteDeclOrder : Suite :=
  { name := "DeclOrder", level := "unit", ctor_raises := false,
    has_setup := true, setup_raises := false,
    methods := [("test_b", MethodOutcome.ok), ("test_a", MethodOutcome.ok)],
    has_cleanup := true, cleanup_raises := false }

/-- A suite with one passing method, one failing method (non-empty
message) and a raising `cleanup`. -/
def suiteMessy : Suite :=
  { name := "Messy", level := "unit", ctor_raises := false,
    has_setup := true, setup_raises := false,
    methods := [("test_ok", MethodOutcome.ok),
                ("test_bad", MethodOutcome.raises "boom")],
    has_cleanup := true, cleanup_raises := true }

/-- A suite whose single test method raises an exception constructed with
no arguments, so `str(e)` is the empty string. -/
def suiteEmptyMsg : Suite :=
  { name := "EmptyMsg", level := "unit", ctor_raises := false,
    has_setup := true, setup_raises := false,
    methods := [("test_x", MethodOutcome.raises "")],
    has_cleanup := true, cleanup_raises := false }

/-- A suite declaring level `"e2e"`. -/
def suiteLevelE2E : Suite :=
  { name := "LevelSuite", level := "e2e", ctor_raises := false,
    has_setup := true, setup_raises := false,
    methods := [("test_a", MethodOutcome.ok)],
    has_cleanup := true, cleanup_raises := false }

/-- An all-passing suite. -/
def suiteAllPass : Suite :=
  { name := "AllPass", level := "unit", ctor_raises := false,
    has_setup := true, setup_raises := false,
    methods := [("test_one", MethodOutcome.ok), ("test_two", MethodOutcome.ok)],
    has_cleanup := true, cleanup_raises := false }

/-- A second all-passing suite (for multi-suite runs). -/
def suiteAlsoPass : Suite :=
  { name := "AlsoPass", level := "unit", ctor_raises := false,
    has_setup := true, setup_raises := false,
    methods := [("test_only", MethodOutcome.ok)],
    has_cleanup := true, cleanup_raises := false }

/-- The suite summary produced for a suite whose `setup` raised: no
result record, every count zero. -/
def emptySuiteSummary (s : Suite) : SuiteSummary :=
  { test_suite := s.name, test_level := s.level, total_tests := 0,
    passed := 0, failed := 0, skipped := 0, success_rate := 0,
    results := [], total_duration := 0 }

/-! ## Helper lemmas -/

theorem runMethod_eq (t : BaseTest) (m : String × MethodOutcome) :
    runMethod t m = { t with results := t.results ++ [recordOf m] } := by
  rcases m with ⟨n, o⟩
  cases o <;> rfl

theorem foldl_runMethod (ms : List (String × MethodOutcome)) (t : BaseTest) :
    ms.foldl runMethod t = { t with results := t.results ++ ms.map recordOf } := by
  induction ms generalizing t with
  | nil => simp
  | cons m rest ih =>
      simp only [List.foldl_cons, runMethod_eq, ih, List.map_cons]
      simp [List.append_assoc]

theorem insertByName_perm (m : String × MethodOutcome)
    (l : List (String × MethodOutcome)) :
    List.Perm (insertByName m l) (m :: l) := by
  induction l with
  | nil => exact List.Perm.refl _
  | cons x xs ih =>
      unfold insertByName
      by_cases h : strLeb m.1 x.1 = true
      · rw [if_pos h]
      · rw [if_neg h]
        exact (ih.cons x).trans (List.Perm.swap m x xs)

theorem sortByName_perm (l : List (String × MethodOutcome)) :
    List.Perm (sortByName l) l := by
  induction l with
  | nil => exact List.Perm.refl _
  | cons m ms ih => exact (insertByName_perm m (sortByName ms)).trans (ih.cons m)

theorem charLeb_total (x y : List Char) :
    charLeb x y = true ∨ charLeb y x = true := by
  induction x generalizing y with
  | nil => left; rfl
  | cons a as ih =>
      cases y with
      | nil => right; rfl
      | cons b bs =>
          by_cases h1 : a.val.toNat < b.val.toNat
          · left; simp [charLeb, h1]
          · by_cases h2 : b.val.toNat < a.val.toNat
            · right; simp [charLeb, h1, h2]
            · rcases ih bs with h | h
              · left; simp [charLeb, h1, h2, h]
              · right; simp [charLeb, h1, h2, h]

theorem charLeb_trans {x y z : List Char} (h1 : charLeb x y = true)
    (h2 : charLeb y z = true) : charLeb x z = true := by
  induction x generalizing y z with
  | nil => rfl
  | cons a as ih =>
      cases y with
      | nil => simp [charLeb] at h1
      | cons b bs =>
          cases z with
          | nil => simp [charLeb] at h2
          | cons c cs =>
              simp only [charLeb] at h1 h2 ⊢
              by_cases hab : a.val.toNat < b.val.toNat
              · by_cases hbc : b.val.toNat < c.val.toNat
                · have : a.val.toNat < c.val.toNat := Nat.lt_trans hab hbc
                  simp [this]
                · rw [if_neg hbc] at h2
                  by_cases hcb : c.val.toNat < b.val.toNat
                  · rw [if_pos hcb] at h2; exact absurd h2 (by simp)
                  · rw [if_neg hcb] at h2
                    have : a.val.toNat < c.val.toNat := by omega
                    simp [this]
              · rw [if_neg hab] at h1
                by_cases hba : b.val.toNat < a.val.toNat
                · rw [if_pos hba] at h1; exact absurd h1 (by simp)
                · rw [if_neg hba] at h1
                  by_cases hbc : b.val.toNat < c.val.toNat
                  · have : a.val.toNat < c.val.toNat := by omega
                    simp [this]
                  · rw [if_neg hbc] at h2
                    by_cases hcb : c.val.toNat < b.val.toNat
                    · rw [if_pos hcb] at h2; exact absurd h2 (by simp)
                    · rw [if_neg hcb] at h2
                      have hac : ¬ a.val.toNat < c.val.toNat := by omega
                      have hca : ¬ c.val.toNat < a.val.toNat := by omega
                      simp [hac, hca, ih h1 h2]

/-- The name order used for stating sortedness of the discovered list. -/
def namesOrdered (a b : String × MethodOutcome) : Prop := strLeb a.1 b.1 = true

theorem strLeb_total (a b : String) : strLeb a b = true ∨ strLeb b a = true :=
  charLeb_total a.toList b.toList

theorem strLeb_trans {a b c : String} (h1 : strLeb a b = true)
    (h2 : strLeb b c = true) : strLeb a c = true :=
  charLeb_trans h1 h2

theorem insertByName_sorted (m : String × MethodOutcome)
    (l : List (String × MethodOutcome)) (h : List.Pairwise namesOrdered l) :
    List.Pairwise namesOrdered (insertByName m l) := by
  induction l with
  | nil => simp [insertByName, List.pairwise_singleton]
  | cons x xs ih =>
      rcases List.pairwise_cons.mp h with ⟨hx, hxs⟩
      unfold insertByName
      by_cases hmx : strLeb m.1 x.1 = true
      · rw [if_pos hmx]
        refine List.pairwise_cons.mpr ⟨?_, h⟩
        intro b hb
        rcases List.mem_cons.mp hb with rfl | hb
        · exact hmx
        · exact strLeb_trans hmx (hx b hb)
      · rw [if_neg hmx]
        refine List.pairwise_cons.mpr ⟨?_, ih hxs⟩
        intro b hb
        have hb' := (insertByName_perm m xs).mem_iff.mp hb
        rcases List.mem_cons.mp hb' with rfl | hb'
        · rcases strLeb_total b.1 x.1 with hbx | hxb
          · exact absurd hbx hmx
          · exact hxb
        · exact hx b hb'

theorem sortByName_sorted (l : List (String × MethodOutcome)) :
    List.Pairwise namesOrdered (sortByName l) := by
  induction l with
  | nil => exact List.Pairwise.nil
  | cons m ms ih => exact insertByName_sorted m (sortByName ms) ih

theorem dictInsert_fresh (d : List (String × SuiteSummary)) (k : String)
    (v : SuiteSummary) (h : ∀ p ∈ d, p.1 ≠ k) :
    dictInsert d k v = d ++ [(k, v)] := by
  have hany : d.any (fun p => p.1 == k) = false := by
    rw [List.any_eq_false]
    intro p hp
    simpa using h p hp
  simp [dictInsert, hany]

theorem run_test_class_ok (s : Suite) (hc : s.ctor_raises = false) :
    ∃ p, run_test_class s = Except.ok p := by
  unfold run_test_class
  simp only [hc, Bool.false_eq_true, if_false]
  split
  · exact ⟨_, rfl⟩
  · exact ⟨_, rfl⟩

theorem applyFilter_subset (f : Option String) (suites : List Suite) :
    ∀ s ∈ applyFilter f suites, s ∈ suites := by
  intro s hs
  cases f with
  | none => exact hs
  | some str =>
      simp only [applyFilter] at hs
      by_cases hstr : str = ""
      · rw [if_pos hstr] at hs; exact hs
      · rw [if_neg hstr] at hs; exact List.mem_of_mem_filter hs

theorem driveSeq_ok (tcs : List Suite) (res : List (String × SuiteSummary))
    (trs : List (String × List Event))
    (h : ∀ s ∈ tcs, s.ctor_raises = false) :
    ∃ out, driveSeq tcs res trs = Except.ok out := by
  induction tcs generalizing res trs with
  | nil => exact ⟨_, rfl⟩
  | cons tc rest ih =>
      obtain ⟨p, hp⟩ := run_test_class_ok tc (h tc (List.mem_cons_self tc rest))
      rcases p with ⟨sum, tr⟩
      simp only [driveSeq, hp]
      exact ih _ _ (fun s hs => h s (List.mem_cons_of_mem _ hs))

theorem run_test_class_crashed (s : Suite) (hc : s.ctor_raises = true) :
    run_test_class s = Except.error (s.name ++ ": constructor raised") := by
  unfold run_test_class
  simp [hc]

theorem drivePar_skips_crashed (c : Suite) (hc : c.ctor_raises = true)
    (pre post : List Suite) :
    ∀ (res : List (String × SuiteSummary)) (trs : List (String × List Event)),
      drivePar (pre ++ c :: post) res trs = drivePar (pre ++ post) res trs := by
  induction pre with
  | nil =>
      intro res trs
      simp only [List.nil_append, drivePar, run_test_class_crashed c hc]
  | cons x xs ih =>
      intro res trs
      simp only [List.cons_append, drivePar]
      cases hx : run_test_class x with
      | error e => exact ih _ _
      | ok p => exact ih _ _

theorem passed_failed_counts (ms : List (String × MethodOutcome)) :
    ((ms.map recordOf).filter (fun r => r.status = "passed")).length =
      (ms.filter (fun m => !m.2.isRaise)).length ∧
    ((ms.map recordOf).filter (fun r => r.status = "failed")).length =
      (ms.filter (fun m => m.2.isRaise)).length := by
  induction ms with
  | nil => exact ⟨rfl, rfl⟩
  | cons m rest ih =>
      rcases m with ⟨n, o⟩
      cases o <;>
        simp [recordOf, MethodOutcome.isRaise, List.filter_cons, ih.1, ih.2]

theorem count_ok_eq_sub (ms : List (String × MethodOutcome)) :
    (ms.filter (fun m => !m.2.isRaise)).length =
      ms.length - (ms.filter (fun m => m.2.isRaise)).length := by
  induction ms with
  | nil => rfl
  | cons m rest ih =>
      have hle := List.length_filter_le (fun m => m.2.isRaise) rest
      cases hm : m.2.isRaise <;> simp [List.filter_cons, hm, ih] <;> omega

theorem filter_three_partition (l : List TestResult)
    (h : ∀ r ∈ l, r.status = "passed" ∨ r.status = "failed" ∨
      r.status = "skipped") :
    l.length = (l.filter (fun r => r.status = "passed")).length +
      (l.filter (fun r => r.status = "failed")).length +
      (l.filter (fun r => r.status = "skipped")).length := by
  induction l with
  | nil => rfl
  | cons r rest ih =>
      have hr := h r (List.mem_cons_self r rest)
      have hrest : ∀ x ∈ rest, x.status = "passed" ∨ x.status = "failed" ∨
          x.status = "skipped" := fun x hx => h x (List.mem_cons_of_mem _ hx)
      rcases hr with h1 | h1 | h1 <;>
        simp [List.filter_cons, h1, ih hrest] <;> omega

theorem applyLogs_eq (t : BaseTest) (calls : List LogCall) :
    applyLogs t calls =
      { t with results := t.results ++ calls.map LogCall.toResult } := by
  induction calls generalizing t with
  | nil => simp [applyLogs]
  | cons c cs ih =>
      show applyLogs (log_result t c.test_name c.status c.duration c.error
        c.details) cs = _
      simp only [ih, log_result, LogCall.toResult, List.map_cons]
      simp [List.append_assoc]

/-- The shape `run_test_class` takes when the constructor does not raise
and `setup` does not raise: every discovered method is driven and logged,
then `cleanup` is attempted when present. -/
theorem run_test_class_normal (s : Suite) (hc : s.ctor_raises = false)
    (hs : (s.has_setup && s.setup_raises) = false) :
    run_test_class s = Except.ok
      (attachDuration (get_test_summary ((discoveredMethods s).foldl runMethod
          (mkBaseTest s.name s.level))) 0,
        (if s.has_setup then [Event.setupCall] else []) ++
          (discoveredMethods s).map (fun m => Event.methodCall m.1) ++
          (if s.has_cleanup then [Event.cleanupCall] else [])) := by
  unfold run_test_class
  simp [hc, hs]

/-! ## Claim theorems -/

/-- Claim C2 (counterexample): in sequential mode an exception raised by a
suite's constructor (`test_class()` on line 65 of `test_runner.py` is
outside the try/except) propagates out of `run_tests`, so the claim that
`run_tests` never raises for any suite-level failure is false. -/
theorem ctor_exception_escapes_run_tests :
    run_tests false [suiteCtorBoom] none none =
      Except.error "CtorBoom: constructor raised" := by rfl

/-- Claim C2 (amended): `run_tests` does not raise for setup, test-method
or cleanup failures — those are converted into result records and summary
data; only a constructor exception can escape, and only via the
sequential path. -/
theorem run_tests_total_without_ctor_failure (parallel_tests : Bool)
    (suites : List Suite) (f l : Option String)
    (h : ∀ s ∈ suites, s.ctor_raises = false) :
    (run_tests parallel_tests suites f l).toOption.isSome = true := by
  simp only [run_tests]
  split
  · rfl
  · obtain ⟨out, hout⟩ := driveSeq_ok (applyFilter f suites) [] []
      (fun s hs => h s (applyFilter_subset f suites s hs))
    rw [hout]
    rfl

/-- Claim C2 witness: a run whose only suite has a failing test method and
a raising `cleanup` still returns normally. -/
theorem run_tests_total_without_ctor_failure_witness :
    (run_tests false [suiteMessy] none none).toOption.isSome = true :=
  run_tests_total_without_ctor_failure false [suiteMessy] none none (by decide)

/-- Claim C4: the JUnit XML `testsuites`-level `tests`, `failures` and
`skipped` attribute values equal the JSON report's `summary.total_tests`,
`summary.failed` and `summary.skipped` for the same run — both formats
read the same run-summary object. -/
theorem junit_json_counts_agree (summary : RunSummary)
    (detailed : List (String × SuiteSummary)) :
    (create_junit_xml summary detailed).tests =
        (generate_json_report summary detailed).summary.total_tests ∧
    (create_junit_xml summary detailed).failures =
        (generate_json_report summary detailed).summary.failed ∧
    (create_junit_xml summary detailed).skipped =
        (generate_json_report summary detailed).summary.skipped :=
  ⟨rfl, rfl, rfl⟩

/-- Claim C5: for the suite summary and for the run summary,
`success_rate = passed/total*100` when `total > 0` and `0` when
`total = 0`. -/
theorem success_rate_formula (t : BaseTest) (d : List (String × SuiteSummary))
    (dur : ℚ) :
    ((get_test_summary t).total_tests = 0 →
      (get_test_summary t).success_rate = 0) ∧
    (0 < (get_test_summary t).total_tests →
      (get_test_summary t).success_rate =
        ((get_test_summary t).passed : ℚ) /
          ((get_test_summary t).total_tests : ℚ) * 100) ∧
    ((generate_test_summary d dur).total_tests = 0 →
      (generate_test_summary d dur).success_rate = 0) ∧
    (0 < (generate_test_summary d dur).total_tests →
      (generate_test_summary d dur).success_rate =
        ((generate_test_summary d dur).passed : ℚ) /
          ((generate_test_summary d dur).total_tests : ℚ) * 100) := by
  refine ⟨?_, ?_, ?_, ?_⟩
  · intro h
    simp only [get_test_summary] at h ⊢
    rw [if_neg (by omega)]
  · intro h
    simp only [get_test_summary] at h ⊢
    rw [if_pos h]
  · intro h
    simp only [generate_test_summary] at h ⊢
    rw [if_neg (by omega)]
  · intro h
    simp only [generate_test_summary] at h ⊢
    rw [if_pos h]

/-- A `BaseTest` instance with one passed and one failed record. -/
def sampleBase : BaseTest :=
  { test_name := "Sample", test_level := "unit",
    results :=
      [ { test_name := "test_one", status := "passed", duration := 0,
          error := none, details := none },
        { test_name := "test_two", status := "failed", duration := 0,
          error := some "boom", details := none } ] }

/-- Claim C5 witness: both branches of the formula at concrete inputs. -/
theorem success_rate_formula_witness :
    (get_test_summary (mkBaseTest "Empty" "unit")).success_rate = 0 ∧
    (get_test_summary sampleBase).success_rate =
      ((get_test_summary sampleBase).passed : ℚ) /
        ((get_test_summary sampleBase).total_tests : ℚ) * 100 :=
  ⟨(success_rate_formula (mkBaseTest "Empty" "unit") [] 0).1 (by decide),
   (success_rate_formula sampleBase [] 0).2.1 (by decide)⟩

/-- Claim C8 (counterexample): a suite declaring level `"e2e"` is still
executed when level `"integration"` is requested — the level branch of
`run_tests` is `pass` (lines 119-121 of `test_runner.py`), so no suite is
ever excluded by level. -/
theorem level_mismatch_not_excluded :
    suiteLevelE2E.level = "e2e" ∧
    (run_tests false [suiteLevelE2E] none (some "integration")).toOption.map
        (fun o => o.summary.total_suites) = some 1 ∧
    (run_tests false [suiteLevelE2E] none (some "integration")).toOption.map
        (fun o => o.all_results.map Prod.fst) = some ["LevelSuite"] :=
  ⟨rfl, by decide, by decide⟩

/-- Claim C8 (amended): the `level` argument of `run_tests` performs no
filtering at all — the run is identical for any two level arguments. -/
theorem level_argument_has_no_effect (parallel_tests : Bool)
    (suites : List Suite) (f l1 l2 : Option String) :
    run_tests parallel_tests suites f l1 =
      run_tests parallel_tests suites f l2 := rfl

/-- Claim C9: if every `log_result` call used a status in
passed/failed/skipped, `get_test_summary` reports
`total_tests = passed + failed + skipped`, and the results list has one
entry per call, in call order. -/
theorem basetest_summary_invariant (name level : String)
    (calls : List LogCall)
    (h : ∀ c ∈ calls, c.status = "passed" ∨ c.status = "failed" ∨
      c.status = "skipped") :
    (get_test_summary (applyLogs (mkBaseTest name level) calls)).total_tests =
        (get_test_summary (applyLogs (mkBaseTest name level) calls)).passed +
        (get_test_summary (applyLogs (mkBaseTest name level) calls)).failed +
        (get_test_summary (applyLogs (mkBaseTest name level) calls)).skipped ∧
    (get_test_summary (applyLogs (mkBaseTest name level) calls)).total_tests =
        calls.length ∧
    (get_test_summary (applyLogs (mkBaseTest name level) calls)).results =
        calls.map LogCall.toResult := by
  have hres : (applyLogs (mkBaseTest name level) calls).results =
      calls.map LogCall.toResult := by
    rw [applyLogs_eq]
    simp [mkBaseTest]
  have hstat : ∀ r ∈ (applyLogs (mkBaseTest name level) calls).results,
      r.status = "passed" ∨ r.status = "failed" ∨ r.status = "skipped" := by
    rw [hres]
    intro r hr
    obtain ⟨c, hc, rfl⟩ := List.mem_map.mp hr
    simpa [LogCall.toResult] using h c hc
  refine ⟨?_, ?_, ?_⟩
  · simpa only [get_test_summary] using
      filter_three_partition _ hstat
  · simp only [get_test_summary, hres, List.length_map]
  · simp only [get_test_summary, hres]

/-- The `log_result` calls used by the C9 witness. -/
def sampleCalls : List LogCall :=
  [ { test_name := "test_one", status := "passed", duration := 0,
      error := none, details := none },
    { test_name := "test_two", status := "failed", duration := 0,
      error := some "boom", details := none },
    { test_name := "test_three", status := "skipped", duration := 0,
      error := none, details := none } ]

/-- Claim C9 witness: the invariant at a concrete call sequence. -/
theorem basetest_summary_invariant_witness :
    (get_test_summary (applyLogs (mkBaseTest "Sample2" "unit")
        sampleCalls)).total_tests =
      (get_test_summary (applyLogs (mkBaseTest "Sample2" "unit")
        sampleCalls)).passed +
      (get_test_summary (applyLogs (mkBaseTest "Sample2" "unit")
        sampleCalls)).failed +
      (get_test_summary (applyLogs (mkBaseTest "Sample2" "unit")
        sampleCalls)).skipped ∧
    (get_test_summary (applyLogs (mkBaseTest "Sample2" "unit")
        sampleCalls)).total_tests = sampleCalls.length ∧
    (get_test_summary (applyLogs (mkBaseTest "Sample2" "unit")
        sampleCalls)).results = sampleCalls.map LogCall.toResult :=
  basetest_summary_invariant "Sample2" "unit" sampleCalls (by decide)

/-- Claim C10: in parallel mode a suite whose drive task ends in an
exception is omitted from `all_results` entirely, so the whole run output
— every aggregate count, the suite map and the overall status — is the
same as if the crashed suite had not been in the list. -/
theorem parallel_crashed_suite_omitted (pre post : List Suite) (c : Suite)
    (hc : c.ctor_raises = true) (hlen : 1 < (pre ++ post).length) :
    run_tests true (pre ++ c :: post) none none =
      run_tests true (pre ++ post) none none := by
  have hlen2 : 1 < (pre ++ c :: post).length := by
    simp only [List.length_append, List.length_cons] at hlen ⊢
    omega
  unfold run_tests
  simp only [applyFilter]
  rw [if_pos (And.intro trivial hlen2), if_pos (And.intro trivial hlen),
    drivePar_skips_crashed c hc pre post]

/-- Claim C10 witness: a crashed suite between two passing suites changes
nothing in the run output. -/
theorem parallel_crashed_suite_omitted_witness :
    run_tests true ([suiteAllPass] ++ suiteCtorBoom :: [suiteAlsoPass])
        none none =
      run_tests true ([suiteAllPass] ++ [suiteAlsoPass]) none none :=
  parallel_crashed_suite_omitted [suiteAllPass] [suiteAlsoPass] suiteCtorBoom
    rfl (by decide)

/-- Claim C1 (counterexample): a run whose only suite raises in `setup`
ends with overall status `"passed"` and `failed = 0` — the suite is not
marked failed in the run summary, contradicting the claim that such a run
has status `"failed"`. -/
theorem setup_failure_run_still_passes :
    suiteSetupBoom.setup_raises = true ∧
    suiteSetupBoom.methods.length = 1 ∧
    (run_tests false [suiteSetupBoom] none none).toOption.map
        (fun o => o.summary.status) = some "passed" ∧
    (run_tests false [suiteSetupBoom] none none).toOption.map
        (fun o => o.summary.failed) = some 0 :=
  ⟨rfl, rfl, by decide, by decide⟩

/-- Claim C1 (amended): when `setup` raises, no test method body is
invoked (the trace holds only the setup call) and the suite contributes an
all-zero summary; merging it into a run leaves every aggregate count, the
success rate and the overall status unchanged — only `total_suites` grows
by one.  There is no suite-failure marker. -/
theorem setup_failure_zero_counts (s : Suite)
    (d : List (String × SuiteSummary)) (hc : s.ctor_raises = false)
    (hs : s.has_setup = true) (hr : s.setup_raises = true)
    (hd : ∀ p ∈ d, p.1 ≠ s.name) :
    run_test_class s = Except.ok (emptySuiteSummary s, [Event.setupCall]) ∧
    generate_test_summary (dictInsert d s.name (emptySuiteSummary s)) 0 =
      { generate_test_summary d 0 with total_suites := d.length + 1 } := by
  constructor
  · unfold run_test_class
    simp [hc, hs, hr, get_test_summary, mkBaseTest, attachDuration,
      emptySuiteSummary]
  · rw [dictInsert_fresh d s.name _ hd]
    simp [generate_test_summary, emptySuiteSummary]

/-- Claim C1 witness: the amended statement at a concrete suite and an
empty prior results map. -/
theorem setup_failure_zero_counts_witness :
    run_test_class suiteSetupBoom =
      Except.ok (emptySuiteSummary suiteSetupBoom, [Event.setupCall]) ∧
    generate_test_summary
        (dictInsert [] suiteSetupBoom.name (emptySuiteSummary suiteSetupBoom))
        0 =
      { generate_test_summary [] 0 with total_suites := 1 } :=
  setup_failure_zero_counts suiteSetupBoom [] rfl rfl rfl
    (fun p hp => absurd hp (List.not_mem_nil p))

/-- Claim C3 (counterexample): when `setup` raises, `cleanup` is never
attempted — the `cleanup` call sits inside the same try block
(`test_runner.py` lines 68-92), so the exception in `setup` skips it —
contradicting the claim that cleanup is attempted once even when `setup`
raised. -/
theorem cleanup_skipped_when_setup_raises :
    suiteSetupBoom.has_cleanup = true ∧
    suiteSetupBoom.setup_raises = true ∧
    (run_test_class suiteSetupBoom).toOption.map
        (fun p => p.2.count Event.cleanupCall) = some 0 :=
  ⟨rfl, rfl, by decide⟩

/-- Claim C3 (amended): when `setup` succeeds, `cleanup` is attempted
exactly once per suite instance — also when test methods raised and when
`cleanup` itself raises — and the suite's recorded results survive a
raising `cleanup`; when `setup` raises, `cleanup` is not attempted. -/
theorem cleanup_attempted_once_after_setup (s : Suite)
    (hc : s.ctor_raises = false) (hcl : s.has_cleanup = true)
    (hs : (s.has_setup && s.setup_raises) = false) :
    ∃ sum evs, run_test_class s = Except.ok (sum, evs) ∧
      evs.count Event.cleanupCall = 1 ∧
      sum.results = (discoveredMethods s).map recordOf := by
  refine ⟨_, _, run_test_class_normal s hc hs, ?_, ?_⟩
  · rw [hcl]
    simp only [if_true]
    rw [List.count_append, List.count_append]
    have h1 : (if s.has_setup then [Event.setupCall] else []).count
        Event.cleanupCall = 0 := by
      cases s.has_setup <;> simp
    have h2 : ((discoveredMethods s).map
        (fun m => Event.methodCall m.1)).count Event.cleanupCall = 0 := by
      rw [List.count_eq_zero]
      intro hmem
      obtain ⟨m, _, hm⟩ := List.mem_map.mp hmem
      exact Event.noConfusion hm
    simp [h1, h2]
  · simp [attachDuration, get_test_summary, foldl_runMethod, mkBaseTest]

/-- Claim C3 witness: the amended statement at a suite with a failing test
method and a raising `cleanup`. -/
theorem cleanup_attempted_once_after_setup_witness :
    ∃ sum evs, run_test_class suiteMessy = Except.ok (sum, evs) ∧
      evs.count Event.cleanupCall = 1 ∧
      sum.results = (discoveredMethods suiteMessy).map recordOf :=
  cleanup_attempted_once_after_setup suiteMessy rfl rfl rfl

/-- Claim C6 (counterexample): a suite declaring `test_b` before `test_a`
records `test_a` first — `dir()` returns attribute names alphabetically
sorted, not in declaration order. -/
theorem declaration_order_not_respected :
    suiteDeclOrder.methods.map Prod.fst = ["test_b", "test_a"] ∧
    (run_test_class suiteDeclOrder).toOption.map
        (fun p => p.1.results.map (fun r => r.test_name)) =
      some ["test_a", "test_b"] ∧
    (["test_a", "test_b"] : List String) ≠ ["test_b", "test_a"] :=
  ⟨rfl, by decide, by decide⟩

/-- Claim C6 (amended): within a suite the discovered methods run strictly
sequentially in the alphabetically sorted order of their names (the order
`dir()` returns) — a permutation of the declared `test_` methods — and the
recorded result list preserves that execution order. -/
theorem methods_run_in_sorted_name_order (s : Suite)
    (hc : s.ctor_raises = false)
    (hs : (s.has_setup && s.setup_raises) = false) :
    ∃ sum evs, run_test_class s = Except.ok (sum, evs) ∧
      sum.results.map (fun r => r.test_name) =
        (discoveredMethods s).map Prod.fst ∧
      List.Pairwise namesOrdered (discoveredMethods s) ∧
      List.Perm (discoveredMethods s) (testMethodsOf s) := by
  refine ⟨_, _, run_test_class_normal s hc hs, ?_, sortByName_sorted _,
    sortByName_perm _⟩
  have hname : ∀ m : String × MethodOutcome,
      (recordOf m).test_name = m.1 := by
    intro m
    rcases m with ⟨n, o⟩
    cases o <;> rfl
  simp [attachDuration, get_test_summary, foldl_runMethod, mkBaseTest,
    List.map_map, Function.comp, hname]

/-- Claim C6 witness: the amended statement at a suite declaring its
methods out of alphabetical order. -/
theorem methods_run_in_sorted_name_order_witness :
    ∃ sum evs, run_test_class suiteDeclOrder = Except.ok (sum, evs) ∧
      sum.results.map (fun r => r.test_name) =
        (discoveredMethods suiteDeclOrder).map Prod.fst ∧
      List.Pairwise namesOrdered (discoveredMethods suiteDeclOrder) ∧
      List.Perm (discoveredMethods suiteDeclOrder)
        (testMethodsOf suiteDeclOrder) :=
  methods_run_in_sorted_name_order suiteDeclOrder rfl rfl

/-- Claim C7 (counterexample): a test method that raises an exception with
an empty message (`str(e) = ""`) yields a failed record whose error string
is empty — the claim that every failed record's error is non-empty is
false. -/
theorem failed_error_can_be_empty :
    (run_test_class suiteEmptyMsg).toOption.map
        (fun p => p.1.results.map (fun r => (r.status, r.error))) =
      some [("failed", some "")] ∧
    (run_test_class suiteEmptyMsg).toOption.map
        (fun p => p.1.failed) = some 1 :=
  ⟨by decide, by decide⟩

/-- Claim C7 (amended): when setup succeeds and every raising method's
exception message is non-empty, a suite with `N` discovered test methods
of which `M` raise reports `passed = N - M` and `failed = M`, and every
failed record carries a non-empty error message (in general the error is
exactly `str(e)`, which is empty iff the exception message is). -/
theorem failing_methods_counts (s : Suite) (hc : s.ctor_raises = false)
    (hs : (s.has_setup && s.setup_raises) = false)
    (hmsg : ∀ m ∈ s.methods, ∀ msg, m.2 = MethodOutcome.raises msg →
      msg ≠ "") :
    ∃ sum evs, run_test_class s = Except.ok (sum, evs) ∧
      sum.failed = ((testMethodsOf s).filter (fun m => m.2.isRaise)).length ∧
      sum.passed = (testMethodsOf s).length -
        ((testMethodsOf s).filter (fun m => m.2.isRaise)).length ∧
      (∀ r ∈ sum.results, r.status = "failed" →
        ∃ msg, r.error = some msg ∧ msg ≠ "") := by
  refine ⟨_, _, run_test_class_normal s hc hs, ?_, ?_, ?_⟩
  · show ((((discoveredMethods s).foldl runMethod
        (mkBaseTest s.name s.level)).results.filter
          (fun r => r.status = "failed")).length) = _
    rw [foldl_runMethod]
    simp only [mkBaseTest, List.nil_append]
    rw [(passed_failed_counts (discoveredMethods s)).2]
    exact ((sortByName_perm (testMethodsOf s)).filter _).length_eq
  · show ((((discoveredMethods s).foldl runMethod
        (mkBaseTest s.name s.level)).results.filter
          (fun r => r.status = "passed")).length) = _
    rw [foldl_runMethod]
    simp only [mkBaseTest, List.nil_append]
    rw [(passed_failed_counts (discoveredMethods s)).1,
      count_ok_eq_sub (discoveredMethods s)]
    simp only [discoveredMethods]
    rw [(sortByName_perm (testMethodsOf s)).length_eq,
      ((sortByName_perm (testMethodsOf s)).filter _).length_eq]
  · intro r hr hfail
    have hr' : r ∈ (discoveredMethods s).map recordOf := by
      simpa [attachDuration, get_test_summary, foldl_runMethod,
        mkBaseTest] using hr
    obtain ⟨m, hm, rfl⟩ := List.mem_map.mp hr'
    have hmem : m ∈ s.methods :=
      List.mem_of_mem_filter
        ((sortByName_perm (testMethodsOf s)).mem_iff.mp hm)
    rcases m with ⟨n, o⟩
    cases o with
    | ok => exact absurd hfail (by simp [recordOf])
    | raises msg =>
        exact ⟨msg, rfl, hmsg _ hmem msg rfl⟩

/-- Claim C7 witness: the amended statement at a suite with one passing
and one raising method whose message is `"boom"`. -/
theorem failing_methods_counts_witness :
    ∃ sum evs, run_test_class suiteMessy = Except.ok (sum, evs) ∧
      sum.failed =
        ((testMethodsOf suiteMessy).filter (fun m => m.2.isRaise)).length ∧
      sum.passed = (testMethodsOf suiteMessy).length -
        ((testMethodsOf suiteMessy).filter (fun m => m.2.isRaise)).length ∧
      (∀ r ∈ sum.results, r.status = "failed" →
        ∃ msg, r.error = some msg ∧ msg ≠ "") :=
  failing_methods_counts suiteMessy rfl rfl
    (by
      intro m hm msg heq
      fin_cases hm
      · exact MethodOutcome.noConfusion heq
      · injection heq with h
        subst h
        decide)

end Automatos
